import Mathlib

/-!
Verification of the uuscan recursive-descent scanning substrate (uuscan.h)
against its natural-language specification.

Shallow embedding conventions:
* A C string pointer into the current line is modelled as the suffix of the
  line it points at (`List Char`); two suffixes of one line are equal exactly
  when the pointers are equal.  The NUL terminator is modelled by `deref`,
  which yields the NUL character when the suffix is empty.
* The global `struct uuscan uu` becomes the structure `uuscan`, passed and
  returned explicitly.  The `void (*callback)()` cleanup hook is a C function
  pointer with unobservable side effects; the model records whether a hook is
  registered (`callback : Bool`) and counts its invocations (`hookFires`),
  which is exactly the observable content the spec talks about (invoked
  exactly once, then cleared).
* `longjmp(uu.errjmp, 1)` becomes the `Except.error` branch of
  `Except uuscan α`: the carried state is the state the registered
  `on_uuerror` handler observes on resumption.
* The optional `res` out-parameter of `accept`/`expect` is passed as NULL by
  `accept(t)`, `acceptall(...)` and `expect(t)` — the forms the claims are
  about — so the `if (res) ...` stores are skipped in the model.
* The terminal registry `uuterms[]` is application-supplied; the model is
  generic over an index type `ι` and a registry `ι → uuterm`, and
  instantiates it with the three terminals of the repository's example
  application (`_ident_`, `_int_`, `_eol_`).
* In `__scan_literal`, for an empty `wanted` the C code reads `wanted[-1]`
  (one byte before the literal), which is undefined behaviour; the model's
  Nat-subtraction index `l - 1 = 0` reads the literal's terminator instead,
  i.e. a character that is neither alphabetic nor a digit.  All theorems
  touching the empty literal are stated so that this modelling choice is
  not load-bearing: the boundary test is against a NUL follower there, on
  which model and C agree regardless of the out-of-bounds byte.
-/

/-- C `'\0'`, the string terminator. -/
def nulc : Char := Char.ofNat 0

/-- C library `isspace` for the default locale (space, \t, \n, \v, \f, \r). -/
def isspace (c : Char) : Bool := c = ' ' ∨ (9 ≤ c.toNat ∧ c.toNat ≤ 13)

/-- C library `isalpha` for the default locale. -/
def isalpha (c : Char) : Bool :=
  ('a'.toNat ≤ c.toNat ∧ c.toNat ≤ 'z'.toNat) ∨
  ('A'.toNat ≤ c.toNat ∧ c.toNat ≤ 'Z'.toNat)

/-- C library `isdigit`. -/
def isdigit (c : Char) : Bool := '0'.toNat ≤ c.toNat ∧ c.toNat ≤ '9'.toNat

/-- C library `isalnum`. -/
def isalnum (c : Char) : Bool := isalpha c || isdigit c

/-- C library `isprint` (printable ASCII, 0x20..0x7e). -/
def isprint (c : Char) : Bool := 32 ≤ c.toNat ∧ c.toNat ≤ 126

/-- `*lp`: dereference a C string pointer; the empty suffix holds the NUL
terminator. -/
def deref (lp : List Char) : Char := lp.headD nulc

/-- `skipspace` from uuscan.h: advance over leading whitespace. -/
def skipspace (lp : List Char) : List Char := lp.dropWhile isspace

/-- C `strlen`: number of characters before the first NUL. -/
def cstrlen (lp : List Char) : Nat := (lp.takeWhile (fun c => c ≠ nulc)).length

/-- C `strncmp(a, b, l) == 0`: the first `l` characters agree, stopping at a
common NUL. -/
def strncmpEq : List Char → List Char → Nat → Bool
  | _, _, 0 => true
  | a, b, l + 1 =>
    if deref a = deref b then
      if deref a = nulc then true else strncmpEq (a.drop 1) (b.drop 1) l
    else false

/-- One octal digit. -/
def octDigit (n : Nat) : Char := Char.ofNat (48 + n % 8)

/-- `%03o` rendering of a byte, as used by `_msg_char` for unprintable
characters. -/
def oct3 (n : Nat) : String :=
  String.mk [octDigit (n / 64), octDigit ((n / 8) % 8), octDigit n]

/-- The scan state `static struct uuscan uu` of uuscan.h (authoritative
version), plus the example application's `UUVAL struct { int i; }` field and
the `hookFires` invocation counter for the cleanup callback (see the module
comment). Pointers into the line are modelled as suffixes of `line`. -/
structure uuscan where
  line : List Char
  lp : List Char
  lpstart : List Char
  lpfail : List Char
  len : Nat
  ch : Char
  msg : String
  failmsg : Option String
  callback : Bool
  hookFires : Nat
  i : Int
  deriving DecidableEq, Repr

/-- Fresh scan state for one input line, as set up by the example
application's read loop: `uu.lp = uu.line = <input>`. -/
def mkUU (s : String) : uuscan :=
  { line := s.data, lp := s.data, lpstart := s.data, lpfail := s.data
    len := 0, ch := nulc, msg := "", failmsg := none
    callback := false, hookFires := 0, i := 0 }

/-- `success(x)`: `(uu.lp=(x), true)`. -/
def success (p : List Char) (st : uuscan) : Bool × uuscan :=
  (true, { st with lp := p })

/-- `_fail_1(x)`: `(uu.lpfail=(x), uu.failmsg=NULL, false)`. -/
def _fail_1 (p : List Char) (st : uuscan) : Bool × uuscan :=
  (false, { st with lpfail := p, failmsg := none })

/-- `_fail_2(x,y)`: `(uu.lpfail=(x), uu.failmsg=(y), false)`. -/
def _fail_2 (p : List Char) (m : String) (st : uuscan) : Bool × uuscan :=
  (false, { st with lpfail := p, failmsg := some m })

/-- `uuerrorpos()`: `(uu.lpfail - uu.line) + 1`, the 1-based column of the
fail position. -/
def uuerrorpos (st : uuscan) : Nat := (st.line.length - st.lpfail.length) + 1

/-- `uuerror(...)`: format the message into `uu.msg`, invoke and clear the
cleanup callback if one is registered, then `longjmp` — the returned state is
what the handler observes. -/
def uuerror (m : String) (st : uuscan) : uuscan :=
  let st1 := { st with msg := m }
  if st1.callback then { st1 with callback := false, hookFires := st1.hookFires + 1 }
  else st1

/-- An entry of `uuterms[]`: scanning function plus display name. The
function receives the post-whitespace pointer and the state (the C version
reads/writes the global `uu`); it may `longjmp` via `uuerror`. -/
structure uuterm where
  fn : List Char → uuscan → Except uuscan (Bool × uuscan)
  name : String

/-- A match target of `accept`/`expect`: the closed set of kinds dispatched
by the `_Generic` selector — string literal, char, or terminal identity. -/
inductive Target (ι : Type) where
  | str (w : List Char)
  | chr (c : Char)
  | trm (t : ι)

/-- `__scan_char(wanted, lp, res)` with `res == NULL`. -/
def __scan_char (wanted : Char) (lp : List Char) (st : uuscan) : Bool × uuscan :=
  if isspace wanted && isspace (deref lp) then
    success (lp.drop 1) st
  else
    let p := skipspace lp
    if deref p = wanted then
      let p1 := if deref p ≠ nulc then p.drop 1 else p
      success p1 { st with ch := wanted }
    else
      _fail_1 p st

/-- `__scan_term(x, lp, res)` with `res == NULL`: skip whitespace, reset
`lpfail`, `lpstart`, `failmsg`, `len`, then invoke the registered scanning
function. -/
def __scan_term {ι : Type} (reg : ι → uuterm) (x : ι) (lp : List Char)
    (st : uuscan) : Except uuscan (Bool × uuscan) :=
  let p := skipspace lp
  (reg x).fn p { st with lpfail := p, lpstart := p, failmsg := none, len := 0 }

/-- `__scan_literal(wanted, lp, res)` with `res == NULL`. -/
def __scan_literal (wanted : List Char) (lp : List Char) (st : uuscan) :
    Bool × uuscan :=
  if deref lp = nulc then
    if deref wanted = nulc then success lp st else _fail_1 lp st
  else
    let lp1 := if isspace (deref wanted) then lp else skipspace lp
    let l := cstrlen wanted
    let st1 := { st with lpstart := lp1 }
    if cstrlen lp1 < l then _fail_1 lp1 st1
    else if strncmpEq wanted lp1 l then
      if isalpha (deref (wanted.drop (l - 1))) && isalpha (deref (lp1.drop l)) then
        _fail_1 lp1 st1
      else if isdigit (deref (wanted.drop (l - 1))) && isdigit (deref (lp1.drop l)) then
        _fail_1 lp1 st1
      else
        success (lp1.drop l) { st1 with len := l }
    else _fail_1 lp1 st1

/-- The loop of the example application's identifier scanner
`UUDEFINE(_ident_)`: `do { ++uu.len; ++lp; } while (*lp && (isalnum(*lp) ||
*lp == '_'))`.  The `[]` case models incrementing from the terminator and is
unreachable under the scanner's entry guard. -/
def identLoop : List Char → Nat → List Char × Nat
  | [], len => ([], len + 1)
  | _ :: rest, len =>
    if deref rest ≠ nulc ∧ (isalnum (deref rest) || deref rest = '_') then
      identLoop rest (len + 1)
    else (rest, len + 1)

/-- `UUDEFINE(_ident_)` from the example application. -/
def _scan__ident_ (lp : List Char) (st : uuscan) : Except uuscan (Bool × uuscan) :=
  if isalpha (deref lp) || deref lp = '_' then
    let r := identLoop lp st.len
    .ok (success r.1 { st with len := r.2 })
  else
    .ok (_fail_1 lp st)

/-- `INT_MAX` for the 32-bit `int` of the example application's platform. -/
def intMax : Nat := 2147483647

/-- The digit-accumulation loop of `UUDEFINE(_int_)`:
`while (*lp && isdigit(*lp)) { d = *lp - '0'; if (val > max || (val == max &&
d > limit)) uuerror("integer overflow"); val *= 10; val += d; ++lp; }` with
`max = INT_MAX / 10` and `limit = INT_MAX % 10`.  The guard fires before any
arithmetic that could overflow a C `int`, so exact `Nat` arithmetic is
faithful. -/
def intLoop : List Char → Nat → uuscan → Except uuscan (Nat × List Char)
  | [], val, _ => .ok (val, [])
  | c :: rest, val, st =>
    if c ≠ nulc ∧ isdigit c then
      let d := c.toNat - 48
      if val > intMax / 10 ∨ (val = intMax / 10 ∧ d > intMax % 10) then
        .error (uuerror "integer overflow" st)
      else
        intLoop rest (val * 10 + d) st
    else .ok (val, c :: rest)

/-- `UUDEFINE(_int_)` from the example application. -/
def _scan__int_ (lp : List Char) (st : uuscan) : Except uuscan (Bool × uuscan) :=
  if isdigit (deref lp) then
    match intLoop lp 0 st with
    | .error e => .error e
    | .ok (val, p) => .ok (success p { st with i := Int.ofNat val })
  else
    .ok (_fail_1 lp st)

/-- `UUDEFINE(_eol_)` from the example application: `return *lp == '\0';` —
it returns its boolean directly, without going through `success`/`fail`. -/
def _scan__eol_ (lp : List Char) (st : uuscan) : Except uuscan (Bool × uuscan) :=
  .ok (deref lp == nulc, st)

/-- The terminal identities declared by the example application:
`#define UUTERMINALS X(_ident_) X(_int_) X(_eol_)`. -/
inductive ExTerm where
  | _ident_
  | _int_
  | _eol_
  deriving DecidableEq, Repr

/-- The `uuterms[]` registry built for the example application's terminal
set. -/
def uuterms : ExTerm → uuterm
  | ._ident_ => { fn := _scan__ident_, name := "_ident_" }
  | ._int_ => { fn := _scan__int_, name := "_int_" }
  | ._eol_ => { fn := _scan__eol_, name := "_eol_" }

/-- `__accept(x, NULL)`: dispatch on the target kind, passing `uu.lp`. -/
def __accept {ι : Type} (reg : ι → uuterm) (x : Target ι) (st : uuscan) :
    Except uuscan (Bool × uuscan) :=
  match x with
  | .str w => .ok (__scan_literal w st.lp st)
  | .chr c => .ok (__scan_char c st.lp st)
  | .trm t => __scan_term reg t st.lp st

/-- The `&&`-chain `_ACCEPTn` of `acceptall`: attempt each target in order,
stopping at the first failure. -/
def acceptSeq {ι : Type} (reg : ι → uuterm) :
    List (Target ι) → uuscan → Except uuscan (Bool × uuscan)
  | [], st => .ok (true, st)
  | t :: ts, st =>
    match __accept reg t st with
    | .error e => .error e
    | .ok (true, st1) => acceptSeq reg ts st1
    | .ok (false, st1) => .ok (false, st1)

/-- `acceptall(t, ...)`: save `uu.lp`, run the chain, and on failure restore
only `uu.lp`. -/
def acceptall {ι : Type} (reg : ι → uuterm) (ts : List (Target ι))
    (st : uuscan) : Except uuscan (Bool × uuscan) :=
  match acceptSeq reg ts st with
  | .error e => .error e
  | .ok (true, st1) => .ok (true, st1)
  | .ok (false, st1) => .ok (false, { st1 with lp := st.lp })

/-- `_msg_str`: failed-expect message for a string-literal target. -/
def _msg_str (s : List Char) (msg : Option String) (st : uuscan) : uuscan :=
  match msg with
  | none =>
    { st with msg := "expected \"" ++ s.asString ++ "\" at pos " ++ toString (uuerrorpos st) }
  | some m =>
    { st with msg := m ++ " at pos " ++ toString (uuerrorpos st) }

/-- `_msg_char`: failed-expect message for a single-character target. -/
def _msg_char (c : Char) (msg : Option String) (st : uuscan) : uuscan :=
  match msg with
  | some m => { st with msg := m ++ " at pos " ++ toString (uuerrorpos st) }
  | none =>
    if isprint c then
      { st with msg := "expected '" ++ String.singleton c ++ "' at pos " ++ toString (uuerrorpos st) }
    else
      { st with msg := "expected '\\" ++ oct3 c.toNat ++ "' at pos " ++ toString (uuerrorpos st) }

/-- `_msg_term`: failed-expect message for a terminal target, with the
optional `uu.failmsg` detail appended in parentheses. -/
def _msg_term {ι : Type} (reg : ι → uuterm) (t : ι) (msg : Option String)
    (st : uuscan) : uuscan :=
  let base :=
    (match msg with
      | none => "expected " ++ (reg t).name
      | some m => m) ++ " at pos " ++ toString (uuerrorpos st)
  match st.failmsg with
  | none => { st with msg := base }
  | some d => { st with msg := base ++ " (" ++ d ++ ")" }

/-- `_expect_msg(x, msg)`: dispatch the failed-expect message formatter on
the target kind. -/
def _expect_msg {ι : Type} (reg : ι → uuterm) (x : Target ι)
    (msg : Option String) (st : uuscan) : uuscan :=
  match x with
  | .str w => _msg_str w msg st
  | .chr c => _msg_char c msg st
  | .trm t => _msg_term reg t msg st

/-- `__expect(x, res, msg)` with `res == NULL`: run `accept`; on a false
return, format the message and `longjmp` (no callback is invoked on this
path). A `longjmp` raised inside the scanner itself propagates. -/
def __expect {ι : Type} (reg : ι → uuterm) (x : Target ι)
    (msg : Option String) (st : uuscan) : Except uuscan uuscan :=
  match __accept reg x st with
  | .error e => .error e
  | .ok (true, st1) => .ok st1
  | .ok (false, st1) => .error (_expect_msg reg x msg st1)

/-- Modelled from the spec (§4.4): the `<name-or-literal>` rendering used in
the default `expect` message, for comparison with what the code's
`_msg_str`/`_msg_char`/`_msg_term` produce. -/
def specExpectedName {ι : Type} (reg : ι → uuterm) : Target ι → String
  | .str w => "\"" ++ w.asString ++ "\""
  | .chr c =>
    if isprint c then "'" ++ String.singleton c ++ "'"
    else "'\\" ++ oct3 c.toNat ++ "'"
  | .trm t => (reg t).name

instance {ε α : Type} [DecidableEq ε] [DecidableEq α] : DecidableEq (Except ε α) :=
  fun a b =>
    match a, b with
    | .error x, .error y =>
      if h : x = y then isTrue (by rw [h]) else isFalse (fun hh => h (Except.error.inj hh))
    | .ok x, .ok y =>
      if h : x = y then isTrue (by rw [h]) else isFalse (fun hh => h (Except.ok.inj hh))
    | .error _, .ok _ => isFalse (fun hh => Except.noConfusion hh)
    | .ok _, .error _ => isFalse (fun hh => Except.noConfusion hh)

/-- Observer: the state carried by a `longjmp` (`Except.error`), if any. -/
def exceptErr {α : Type} : Except uuscan α → Option uuscan
  | .error e => some e
  | .ok _ => none

/-- Observer: the value of a normal return (`Except.ok`), if any. -/
def exceptOk {α : Type} : Except uuscan α → Option α
  | .error _ => none
  | .ok a => some a

/-- A scan state with a cleanup callback registered. -/
def withCallback (st : uuscan) : uuscan := { st with callback := true }

/-- A one-terminal registry whose scanner reports a lexical defect through
the two-argument `fail(cp, msg)` form documented in uuscan.h, attaching the
detail `"bad digit"`; used to exercise `_msg_term`'s detail suffix. -/
def detailReg : Unit → uuterm :=
  fun _ => { fn := fun lp st => .ok (_fail_2 lp "bad digit" st), name := "number" }

/-- A failing `__scan_literal` leaves `uu.lp`, the callback bookkeeping and
`uu.msg` untouched, and resets `uu.failmsg`. -/
theorem scan_literal_false (w lp : List Char) (st st1 : uuscan)
    (h : __scan_literal w lp st = (false, st1)) :
    st1.lp = st.lp ∧ st1.failmsg = none ∧ st1.callback = st.callback ∧
      st1.hookFires = st.hookFires ∧ st1.msg = st.msg ∧ st1.line = st.line := by
  unfold __scan_literal at h
  dsimp only at h
  split_ifs at h with h1 h2 h3 h4 h5 h6 <;>
    first
      | simp [success] at h
      | (simp only [_fail_1, Prod.mk.injEq, true_and] at h
         subst h
         simp)

/-- A failing `__scan_char` is exactly `fail(p)` at the post-whitespace
position. -/
theorem scan_char_false (c : Char) (lp : List Char) (st st1 : uuscan)
    (h : __scan_char c lp st = (false, st1)) :
    st1 = { st with lpfail := skipspace lp, failmsg := none } := by
  unfold __scan_char at h
  dsimp only at h
  split_ifs at h with h1 h2 <;>
    first
      | simp [success] at h
      | (simp only [_fail_1, Prod.mk.injEq, true_and] at h
         exact h.symm)

/-- A failing scan of any of the example application's terminals leaves
`uu.lp`, the callback bookkeeping and `uu.msg` untouched, and leaves
`uu.failmsg` as reset by `__scan_term` (none: the example scanners never use
the two-argument `fail`). -/
theorem scan_term_false (t : ExTerm) (lp : List Char) (st st1 : uuscan)
    (h : __scan_term uuterms t lp st = .ok (false, st1)) :
    st1.lp = st.lp ∧ st1.failmsg = none ∧ st1.callback = st.callback ∧
      st1.hookFires = st.hookFires ∧ st1.msg = st.msg ∧ st1.line = st.line := by
  cases t
  · unfold __scan_term uuterms _scan__ident_ at h
    dsimp only at h
    split_ifs at h with h1
    · simp [success] at h
    · simp only [_fail_1, Except.ok.injEq, Prod.mk.injEq, true_and] at h
      subst h
      simp
  · unfold __scan_term uuterms _scan__int_ at h
    dsimp only at h
    split_ifs at h with h1
    · split at h
      · exact absurd h (by simp)
      · simp [success] at h
    · simp only [_fail_1, Except.ok.injEq, Prod.mk.injEq, true_and] at h
      subst h
      simp
  · unfold __scan_term uuterms _scan__eol_ at h
    dsimp only at h
    simp only [Except.ok.injEq, Prod.mk.injEq] at h
    obtain ⟨-, h2⟩ := h
    subst h2
    simp

/-- C1: for every match target (string literal, single character, or
terminal identity of the example application) and every scan state, if
`accept(target)` returns false then the cursor `uu.lp` after the call equals
`uu.lp` before the call; the cursor is mutated only by a successful match
(via `success()`). -/
theorem accept_false_preserves_lp (x : Target ExTerm) (st st1 : uuscan)
    (h : __accept uuterms x st = .ok (false, st1)) : st1.lp = st.lp := by
  cases x with
  | str w =>
    simp only [__accept, Except.ok.injEq] at h
    exact (scan_literal_false w st.lp st st1 h).1
  | chr c =>
    simp only [__accept, Except.ok.injEq] at h
    have h2 := scan_char_false c st.lp st st1 h
    subst h2
    rfl
  | trm t =>
    exact (scan_term_false t st.lp st st1 h).1

/-- Witness for C1: `accept("y")` on the line `"  x"` fails (after skipping
the blanks) and the cursor is unchanged. -/
theorem accept_false_preserves_lp_witness :
    ({ mkUU "  x" with lpstart := "x".data, lpfail := "x".data } : uuscan).lp
      = (mkUU "  x").lp :=
  accept_false_preserves_lp (Target.str "y".data) (mkUU "  x")
    { mkUU "  x" with lpstart := "x".data, lpfail := "x".data } (by decide)

/-- C2: `acceptall(t1, ..., tn)` (2 to 5 targets) attempts each target in
order via `accept` (the short-circuit chain `acceptSeq`); if every target
succeeds it returns true with the cursor reflecting the cumulative
consumption (the chained state), and if any target fails it returns false
with `uu.lp` equal to its value from before the first target, regardless of
how many leading targets succeeded. -/
theorem acceptall_transactional {ι : Type} (reg : ι → uuterm)
    (ts : List (Target ι)) (st : uuscan)
    (_hlen2 : 2 ≤ ts.length) (_hlen5 : ts.length ≤ 5) :
    (∀ st1, acceptSeq reg ts st = .ok (true, st1) →
      acceptall reg ts st = .ok (true, st1)) ∧
    (∀ st1, acceptSeq reg ts st = .ok (false, st1) →
      acceptall reg ts st = .ok (false, { st1 with lp := st.lp })) := by
  constructor <;> intro st1 h <;> simp [acceptall, h]

/-- Witness for C2: `acceptall("a", "b")` on the line `"a c"`: the first
target succeeds and consumes `"a"`, the second fails, and the cursor is
restored to the start of the line. -/
theorem acceptall_transactional_witness :
    acceptall uuterms [Target.str "a".data, Target.str "b".data] (mkUU "a c")
      = .ok (false, { mkUU "a c" with lp := "a c".data, lpstart := "c".data, lpfail := "c".data, len := 1 }) :=
  (acceptall_transactional uuterms
      [Target.str "a".data, Target.str "b".data] (mkUU "a c")
      (by decide) (by decide)).2
    { mkUU "a c" with lp := " c".data, lpstart := "c".data, lpfail := "c".data, len := 1 }
    (by decide)

/-- C9: backtracking preserves only the cursor.  For every terminal `t`,
`accept(t)` first overwrites `uu.lpstart` and `uu.lpfail` with the
post-whitespace position, sets `uu.len` to 0 and `uu.failmsg` to NULL, and
only then invokes the terminal's scanning function on that state; and when
`acceptall` fails it restores only `uu.lp`, leaving `uu.lpstart`,
`uu.lpfail`, `uu.len` and `uu.failmsg` exactly as set by the last attempted
target. -/
theorem accept_term_resets_and_acceptall_restores_only_lp {ι : Type}
    (reg : ι → uuterm) (t : ι) (ts : List (Target ι)) (st st1 : uuscan) :
    (__accept reg (Target.trm t) st =
      (reg t).fn (skipspace st.lp)
        { st with lpstart := skipspace st.lp, lpfail := skipspace st.lp, failmsg := none, len := 0 }) ∧
    (acceptSeq reg ts st = .ok (false, st1) →
      acceptall reg ts st = .ok (false, { st1 with lp := st.lp })) := by
  constructor
  · rfl
  · intro h
    simp [acceptall, h]

/-- Witness for C9: `acceptall(_ident_, "+")` on `" x -"`: the identifier
succeeds, `"+"` fails at the post-whitespace position before `"-"`, and the
result keeps the last attempt's `lpstart`/`lpfail`/`len`/`failmsg` while
restoring only `uu.lp`. -/
theorem accept_term_resets_witness :
    (__accept uuterms (Target.trm ExTerm._ident_) (mkUU " x -") =
      (uuterms ExTerm._ident_).fn (skipspace (mkUU " x -").lp)
        { mkUU " x -" with lpstart := skipspace (mkUU " x -").lp, lpfail := skipspace (mkUU " x -").lp, failmsg := none, len := 0 }) ∧
    acceptall uuterms [Target.trm ExTerm._ident_, Target.str "+".data]
        (mkUU " x -") =
      .ok (false, { mkUU " x -" with lp := " x -".data, lpstart := "-".data, lpfail := "-".data, len := 1 }) := by
  refine ⟨?_, ?_⟩
  · exact (accept_term_resets_and_acceptall_restores_only_lp uuterms
      ExTerm._ident_ [] (mkUU " x -") (mkUU " x -")).1
  · exact (accept_term_resets_and_acceptall_restores_only_lp uuterms
      ExTerm._ident_ [Target.trm ExTerm._ident_, Target.str "+".data]
      (mkUU " x -")
      { mkUU " x -" with lp := " -".data, lpstart := "-".data, lpfail := "-".data, len := 1 }).2 (by decide)

/-- Counterexample to C3: the code's boundary check tests whether the
character after the matched prefix is *alphabetic* (`isalpha(lp[l])`), not
alphanumeric.  Matching `"if"` against `"if9"` has an alphabetic last wanted
character and an alphanumeric (digit) follower, so the claim says it must
fail — but the scan succeeds, consuming `"if"`. -/
theorem scan_literal_alnum_boundary_cex :
    isalpha 'f' = true ∧ isalnum '9' = true ∧
      __scan_literal "if".data (mkUU "if9").lp (mkUU "if9")
        = (true, { mkUU "if9" with lp := "9".data, len := 2 }) := by decide

/-- C3 (amended): for a wanted literal that matches as a prefix at the
post-whitespace position `p`, the match succeeds iff it is not the case that
the last wanted character and the follower are both alphabetic, nor both
digits (the follower test is alphabetic, not alphanumeric); concretely,
`"if"` against `"ifdef x"` fails and `"if"` against `"if x"` succeeds
leaving the cursor at `" x"`. -/
theorem scan_literal_boundary :
    (∀ (w p : List Char) (st : uuscan),
      deref st.lp ≠ nulc →
      p = (if isspace (deref w) then st.lp else skipspace st.lp) →
      cstrlen w ≤ cstrlen p →
      strncmpEq w p (cstrlen w) = true →
      ((__scan_literal w st.lp st).1 = true ↔
        ¬(isalpha (deref (w.drop (cstrlen w - 1))) = true ∧
            isalpha (deref (p.drop (cstrlen w))) = true) ∧
        ¬(isdigit (deref (w.drop (cstrlen w - 1))) = true ∧
            isdigit (deref (p.drop (cstrlen w))) = true))) ∧
    (__scan_literal "if".data (mkUU "ifdef x").lp (mkUU "ifdef x")).1 = false ∧
    __scan_literal "if".data (mkUU "if x").lp (mkUU "if x")
      = (true, { mkUU "if x" with lp := " x".data, len := 2 }) := by
  refine ⟨?_, by decide, by decide⟩
  intro w p st hnn hp hlen hmatch
  unfold __scan_literal
  rw [if_neg hnn]
  dsimp only
  rw [← hp, if_neg (by omega : ¬ cstrlen p < cstrlen w), if_pos hmatch]
  split_ifs with hA hB <;>
    simp_all [success, _fail_1]

/-- Witness for C3: matching `"ab"` against `"ab!"` — prefix matches, the
follower `'!'` is neither alphabetic nor a digit, so the iff yields
success. -/
theorem scan_literal_boundary_witness :
    (__scan_literal "ab".data (mkUU "ab!").lp (mkUU "ab!")).1 = true ↔
      ¬(isalpha (deref ("ab".data.drop (cstrlen "ab".data - 1))) = true ∧
          isalpha (deref ("ab!".data.drop (cstrlen "ab".data))) = true) ∧
      ¬(isdigit (deref ("ab".data.drop (cstrlen "ab".data - 1))) = true ∧
          isdigit (deref ("ab!".data.drop (cstrlen "ab".data))) = true) :=
  scan_literal_boundary.1 "ab".data "ab!".data (mkUU "ab!")
    (by decide) (by decide) (by decide) (by decide)

/-- Counterexample to C4: on the line `" "` (one blank), the cursor is not
at end-of-input, yet matching the empty string literal succeeds — the
whitespace skip runs the cursor to the terminator and the zero-length prefix
trivially matches. -/
theorem empty_literal_cex :
    deref (mkUU " ").lp ≠ nulc ∧
      __scan_literal "".data (mkUU " ").lp (mkUU " ")
        = (true, { mkUU " " with lp := [], lpstart := [] }) := by decide

/-- C4 (amended): matching the empty string literal succeeds when the
cursor is at end-of-input (NUL at the cursor, cursor unmoved), and more
generally whenever the input remaining at the cursor is entirely
whitespace, with the cursor advanced to end-of-input. -/
theorem empty_literal_succeeds :
    (∀ st : uuscan, deref st.lp = nulc →
      __scan_literal [] st.lp st = (true, st)) ∧
    (∀ st : uuscan, st.lp.all isspace = true →
      (__scan_literal [] st.lp st).1 = true ∧
        (__scan_literal [] st.lp st).2.lp = skipspace st.lp) := by
  constructor
  · intro st h
    unfold __scan_literal
    rw [if_pos h, if_pos (show deref ([] : List Char) = nulc from rfl)]
    simp [success]
  · intro st h
    rcases hlp : st.lp with _ | ⟨c, rest⟩
    · unfold __scan_literal
      simp [deref, success, skipspace]
    · have h2 : (c :: rest).all isspace = true := by rw [← hlp]; exact h
      have hc : isspace c = true := List.all_eq_true.mp h2 c (by simp)
      have hs : skipspace (c :: rest) = [] := by
        simp only [skipspace, List.dropWhile_eq_nil_iff]
        intro x hx
        exact List.all_eq_true.mp h2 x hx
      have hn : deref (c :: rest) ≠ nulc := by
        simp only [deref, List.headD_cons]
        intro he
        rw [he] at hc
        exact absurd hc (by decide)
      unfold __scan_literal
      rw [if_neg hn]
      dsimp only
      rw [show isspace (deref ([] : List Char)) = false from by decide]
      simp only [Bool.false_eq_true, if_false, hs]
      simp [cstrlen, strncmpEq, deref, success, _fail_1, isalpha, isdigit]
      norm_num [show nulc.toNat = 0 from rfl]

/-- Witness for C4 (amended): the empty literal matches at end-of-input on
the empty line, and on a line of two blanks it matches with the cursor run
to end-of-input. -/
theorem empty_literal_succeeds_witness :
    __scan_literal [] (mkUU "").lp (mkUU "") = (true, mkUU "") ∧
      (__scan_literal [] (mkUU "  ").lp (mkUU "  ")).1 = true ∧
        (__scan_literal [] (mkUU "  ").lp (mkUU "  ")).2.lp
          = skipspace (mkUU "  ").lp :=
  ⟨empty_literal_succeeds.1 (mkUU "") (by decide),
   empty_literal_succeeds.2 (mkUU "  ") (by decide)⟩

/-- C7: the single-character matcher.  (1) If the wanted character is
whitespace and the character at the cursor is whitespace, exactly one
character is consumed and the scan succeeds; (2) otherwise, after skipping
leading whitespace to `p`, if the character at `p` equals the wanted
character the scan succeeds with the cursor advanced by one unless at
end-of-text; (3) otherwise the scan fails with `failPosition = p` and the
cursor unchanged. -/
theorem scan_char_cases (c : Char) (st : uuscan) :
    (isspace c = true → isspace (deref st.lp) = true →
      __scan_char c st.lp st = (true, { st with lp := st.lp.drop 1 })) ∧
    (¬(isspace c = true ∧ isspace (deref st.lp) = true) →
      deref (skipspace st.lp) = c →
      __scan_char c st.lp st =
        (true, { st with ch := c, lp := if deref (skipspace st.lp) ≠ nulc then (skipspace st.lp).drop 1 else skipspace st.lp })) ∧
    (¬(isspace c = true ∧ isspace (deref st.lp) = true) →
      deref (skipspace st.lp) ≠ c →
      __scan_char c st.lp st =
        (false, { st with lpfail := skipspace st.lp, failmsg := none })) := by
  refine ⟨?_, ?_, ?_⟩
  · intro h1 h2
    unfold __scan_char
    rw [if_pos (by simp [h1, h2])]
    rfl
  · intro h1 h2
    unfold __scan_char
    rw [if_neg (by simpa [Bool.and_eq_true] using h1)]
    dsimp only
    rw [if_pos h2]
    simp [success]
  · intro h1 h2
    unfold __scan_char
    rw [if_neg (by simpa [Bool.and_eq_true] using h1)]
    dsimp only
    rw [if_neg h2]
    rfl

/-- Witness for C7: wanted `' '` on `" a"` consumes exactly the blank;
wanted `'a'` on `" ab"` skips the blank and consumes `'a'`; wanted `'x'` on
`" a"` fails at the post-whitespace position with the cursor unchanged. -/
theorem scan_char_cases_witness :
    __scan_char ' ' (mkUU " a").lp (mkUU " a")
        = (true, { mkUU " a" with lp := "a".data }) ∧
      __scan_char 'a' (mkUU " ab").lp (mkUU " ab")
        = (true, { mkUU " ab" with ch := 'a', lp := "b".data }) ∧
      __scan_char 'x' (mkUU " a").lp (mkUU " a")
        = (false, { mkUU " a" with lpfail := "a".data, failmsg := none }) := by
  refine ⟨?_, ?_, ?_⟩
  · have h := (scan_char_cases ' ' (mkUU " a")).1 (by decide) (by decide)
    simpa using h
  · have h := (scan_char_cases 'a' (mkUU " ab")).2.1 (by decide) (by decide)
    simpa using h
  · have h := (scan_char_cases 'x' (mkUU " a")).2.2 (by decide) (by decide)
    simpa using h

/-- C8: scanning the integer terminal against `"2147483648"` (one more than
`INT_MAX`) raises `"integer overflow"` via `uuerror` instead of wrapping;
and the digit-accumulation loop keeps the accumulated value within
`INT_MAX`: from any entry value within the bound, a normal exit of `intLoop`
is within the bound (the guard fires before any accumulation step could
exceed it). -/
theorem int_overflow_guard :
    __accept uuterms (Target.trm ExTerm._int_) (mkUU "2147483648")
        = .error { mkUU "2147483648" with msg := "integer overflow" } ∧
      (∀ (lp : List Char) (val : Nat) (st : uuscan) (v : Nat) (p : List Char),
        val ≤ intMax → intLoop lp val st = .ok (v, p) → v ≤ intMax) := by
  constructor
  · decide
  · intro lp
    induction lp with
    | nil =>
      intro val st v p hval h
      simp only [intLoop, Except.ok.injEq, Prod.mk.injEq] at h
      omega
    | cons c rest ih =>
      intro val st v p hval h
      unfold intLoop at h
      dsimp only at h
      by_cases h1 : c ≠ nulc ∧ isdigit c = true
      · rw [if_pos h1] at h
        by_cases h2 : val > intMax / 10 ∨ (val = intMax / 10 ∧ c.toNat - 48 > intMax % 10)
        · rw [if_pos h2] at h
          exact absurd h (by simp)
        · rw [if_neg h2] at h
          have hd9 : c.toNat - 48 ≤ 9 := by
            have hdig := h1.2
            simp only [isdigit, decide_eq_true_eq, show Char.toNat '0' = 48 from rfl,
              show Char.toNat '9' = 57 from rfl] at hdig
            omega
          have hm : intMax / 10 = 214748364 := by norm_num [intMax]
          have hl : intMax % 10 = 7 := by norm_num [intMax]
          refine ih (val * 10 + (c.toNat - 48)) st v p ?_ h
          rw [hm, hl] at h2
          push_neg at h2
          rcases Nat.lt_or_ge val 214748364 with hv | hv
          · have hstep : val * 10 + (c.toNat - 48) ≤ 214748363 * 10 + 9 := by
              have hvb : val ≤ 214748363 := by omega
              nlinarith
            simp only [intMax]
            omega
          · have hve : val = 214748364 := by omega
            have hd7 := h2.2 hve
            simp only [intMax]
            omega
      · rw [if_neg h1] at h
        simp only [Except.ok.injEq, Prod.mk.injEq] at h
        omega

/-- Witness for C8's loop bound: running the loop on `"12"` from 0 yields
12, within `INT_MAX`. -/
theorem int_overflow_guard_witness : (12 : Nat) ≤ intMax :=
  int_overflow_guard.2 "12".data 0 (mkUU "12") 12 [] (by decide) (by decide)

/-- `++` on strings is associative (via the underlying character lists). -/
theorem string_append_assoc (a b c : String) : a ++ b ++ c = a ++ (b ++ c) := by
  apply String.ext
  simp [String.data_append, List.append_assoc]

/-- The failed-expect message formatters only write `uu.msg`; in particular
the callback bookkeeping survives unchanged. -/
theorem expect_msg_fields {ι : Type} (reg : ι → uuterm) (x : Target ι)
    (msgO : Option String) (st : uuscan) :
    (_expect_msg reg x msgO st).callback = st.callback ∧
      (_expect_msg reg x msgO st).hookFires = st.hookFires := by
  cases x with
  | str w => cases msgO <;> simp [_expect_msg, _msg_str]
  | chr c =>
    cases msgO
    · simp only [_expect_msg, _msg_char]
      split_ifs <;> simp
    · simp [_expect_msg, _msg_char]
  | trm t =>
    cases msgO <;> cases hfm : st.failmsg <;> simp [_expect_msg, _msg_term, hfm]

/-- C5: `expect(target)` never returns false — a normal return means the
underlying `accept` matched, with the identical resulting state; on an
`accept` failure it transfers control non-locally, and the message stored
for the handler is `"expected <name-or-literal> at pos N"`, or
`"<overrideMessage> at pos N"` with the `"expected "` prefix omitted when an
override is supplied, with N equal to `failPosition - line_start + 1`. -/
theorem expect_behavior (x : Target ExTerm) (msgO : Option String) (st : uuscan) :
    (∀ st2, __expect uuterms x msgO st = .ok st2 ↔
      __accept uuterms x st = .ok (true, st2)) ∧
    (∀ st1, __accept uuterms x st = .ok (false, st1) →
      __expect uuterms x msgO st = .error (_expect_msg uuterms x msgO st1) ∧
        (_expect_msg uuterms x msgO st1).msg =
          (match msgO with
            | none => "expected " ++ specExpectedName uuterms x
            | some m => m) ++ " at pos "
            ++ toString ((st1.line.length - st1.lpfail.length) + 1)) := by
  constructor
  · intro st2
    constructor
    · intro h
      unfold __expect at h
      cases hacc : __accept uuterms x st with
      | error e =>
        rw [hacc] at h
        exact absurd h (by simp)
      | ok pr =>
        rw [hacc] at h
        obtain ⟨b, stb⟩ := pr
        cases b
        · dsimp only at h
          exact absurd h (by simp)
        · dsimp only at h
          simp only [Except.ok.injEq] at h
          rw [h]
    · intro h
      unfold __expect
      rw [h]
  · intro st1 h
    have hexp : __expect uuterms x msgO st
        = .error (_expect_msg uuterms x msgO st1) := by
      unfold __expect
      rw [h]
    refine ⟨hexp, ?_⟩
    cases x with
    | str w =>
      cases msgO with
      | none =>
        simp [_expect_msg, _msg_str, specExpectedName, uuerrorpos, string_append_assoc]
        apply String.ext
        simp [String.data_append, List.append_assoc,
          show ("expected \"" : String).data = ("expected " : String).data ++ ("\"" : String).data from by decide,
          show ("\" at pos " : String).data = ("\"" : String).data ++ (" at pos " : String).data from by decide]
      | some m => simp [_expect_msg, _msg_str, uuerrorpos]
    | chr c =>
      cases msgO with
      | none =>
        by_cases hp : isprint c = true
        · simp [_expect_msg, _msg_char, specExpectedName, uuerrorpos, hp, string_append_assoc]
          apply String.ext
          simp [String.data_append, List.append_assoc,
            show ("expected '" : String).data = ("expected " : String).data ++ ("'" : String).data from by decide,
            show ("' at pos " : String).data = ("'" : String).data ++ (" at pos " : String).data from by decide]
        · simp [_expect_msg, _msg_char, specExpectedName, uuerrorpos, hp, string_append_assoc]
          apply String.ext
          simp [String.data_append, List.append_assoc,
            show ("expected '\\" : String).data = ("expected " : String).data ++ ("'\\" : String).data from by decide,
            show ("' at pos " : String).data = ("'" : String).data ++ (" at pos " : String).data from by decide]
      | some m => simp [_expect_msg, _msg_char, uuerrorpos]
    | trm t =>
      have hfm : st1.failmsg = none := (scan_term_false t st.lp st st1 h).2.1
      cases msgO <;> simp [_expect_msg, _msg_term, hfm, specExpectedName, uuerrorpos]

/-- Witness for C5: `expect("foo")` on the line `"ba"` fails and stores
`expected "foo" at pos 1`. -/
theorem expect_behavior_witness :
    __expect uuterms (Target.str "foo".data) none (mkUU "ba")
        = .error (_expect_msg uuterms (Target.str "foo".data) none (mkUU "ba")) ∧
      (_expect_msg uuterms (Target.str "foo".data) none (mkUU "ba")).msg =
        "expected " ++ specExpectedName uuterms (Target.str "foo".data)
          ++ " at pos "
          ++ toString (((mkUU "ba").line.length - (mkUU "ba").lpfail.length) + 1) :=
  (expect_behavior (Target.str "foo".data) none (mkUU "ba")).2 (mkUU "ba") (by decide)

/-- Counterexample to C6: with a cleanup hook registered, a failed
`expect("x")` on the line `"y"` transfers to the handler with the hook
still registered and never invoked — `__expect` jumps directly, without the
`uuerror` callback step. -/
theorem expect_skips_callback_cex :
    (exceptErr (__expect uuterms (Target.str "x".data) none
        (withCallback (mkUU "y")))).map (fun s => (s.callback, s.hookFires))
      = some (true, 0) := by decide

/-- C6 (amended): an error raised explicitly via `uuerror` invokes a
registered cleanup hook exactly once and clears it before transferring
control; an error raised implicitly by a failed `expect` (the underlying
`accept` returned false) transfers control without invoking or clearing the
hook. -/
theorem uuerror_callback_once :
    (∀ (m : String) (st : uuscan), st.callback = true →
      uuerror m st = { st with msg := m, callback := false, hookFires := st.hookFires + 1 }) ∧
    (∀ (m : String) (st : uuscan), st.callback = false →
      uuerror m st = { st with msg := m }) ∧
    (∀ (x : Target ExTerm) (msgO : Option String) (st st1 : uuscan),
      __accept uuterms x st = .ok (false, st1) →
      ∃ st2, __expect uuterms x msgO st = .error st2 ∧
        st2.callback = st.callback ∧ st2.hookFires = st.hookFires) := by
  refine ⟨?_, ?_, ?_⟩
  · intro m st h
    unfold uuerror
    dsimp only
    rw [if_pos (by simpa using h)]
  · intro m st h
    unfold uuerror
    dsimp only
    rw [if_neg (by simp [h])]
  · intro x msgO st st1 h
    refine ⟨_expect_msg uuterms x msgO st1, ?_, ?_, ?_⟩
    · unfold __expect
      rw [h]
    · rw [(expect_msg_fields uuterms x msgO st1).1]
      cases x with
      | str w =>
        simp only [__accept, Except.ok.injEq] at h
        exact (scan_literal_false w st.lp st st1 h).2.2.1
      | chr c =>
        simp only [__accept, Except.ok.injEq] at h
        rw [scan_char_false c st.lp st st1 h]
      | trm t => exact (scan_term_false t st.lp st st1 h).2.2.1
    · rw [(expect_msg_fields uuterms x msgO st1).2]
      cases x with
      | str w =>
        simp only [__accept, Except.ok.injEq] at h
        exact (scan_literal_false w st.lp st st1 h).2.2.2.1
      | chr c =>
        simp only [__accept, Except.ok.injEq] at h
        rw [scan_char_false c st.lp st st1 h]
      | trm t => exact (scan_term_false t st.lp st st1 h).2.2.2.1

/-- Witness for C6 (amended): `uuerror` on a state with a registered hook
fires it once and clears it; a failed `expect` on a hook-registered state
leaves the hook bookkeeping untouched. -/
theorem uuerror_callback_once_witness :
    uuerror "oops" (withCallback (mkUU "y"))
        = { withCallback (mkUU "y") with msg := "oops", callback := false, hookFires := 1 } ∧
      uuerror "oops" (mkUU "y") = { mkUU "y" with msg := "oops" } ∧
      ∃ st2, __expect uuterms (Target.str "x".data) none (withCallback (mkUU "y"))
          = .error st2 ∧
        st2.callback = (withCallback (mkUU "y")).callback ∧
        st2.hookFires = (withCallback (mkUU "y")).hookFires :=
  ⟨uuerror_callback_once.1 "oops" (withCallback (mkUU "y")) (by decide),
   uuerror_callback_once.2.1 "oops" (mkUU "y") (by decide),
   uuerror_callback_once.2.2 (Target.str "x".data) none (withCallback (mkUU "y"))
     { withCallback (mkUU "y") with lpstart := "y".data, lpfail := "y".data } (by decide)⟩

/-- C10: if `expect` of a terminal fails and the terminal's scanner attached
a pending detail via the two-argument `fail(lp, msg)`, the stored error
message is the default or override message with the detail appended in
parentheses, the `"expected "` prefix being omitted under an override. -/
theorem expect_term_detail {ι : Type} (reg : ι → uuterm) (t : ι)
    (msgO : Option String) (st st1 : uuscan) (d : String)
    (hacc : __accept reg (Target.trm t) st = .ok (false, st1))
    (hfm : st1.failmsg = some d) :
    __expect reg (Target.trm t) msgO st = .error (_msg_term reg t msgO st1) ∧
      (_msg_term reg t msgO st1).msg =
        (match msgO with
          | none => "expected " ++ (reg t).name
          | some m => m) ++ " at pos "
          ++ toString ((st1.line.length - st1.lpfail.length) + 1)
          ++ " (" ++ d ++ ")" := by
  constructor
  · unfold __expect
    rw [hacc]
    rfl
  · cases msgO <;> simp [_msg_term, hfm, uuerrorpos]

/-- Witness for C10: the `detailReg` terminal fails on `"z"` attaching
`"bad digit"`; the default message carries the detail in parentheses. -/
theorem expect_term_detail_witness :
    __expect detailReg (Target.trm ()) none (mkUU "z")
        = .error (_msg_term detailReg () none
            { mkUU "z" with failmsg := some "bad digit" }) ∧
      (_msg_term detailReg () none { mkUU "z" with failmsg := some "bad digit" }).msg =
        "expected " ++ (detailReg ()).name ++ " at pos "
          ++ toString ((( { mkUU "z" with failmsg := some "bad digit" } : uuscan).line.length
              - ({ mkUU "z" with failmsg := some "bad digit" } : uuscan).lpfail.length) + 1)
          ++ " (" ++ "bad digit" ++ ")" :=
  expect_term_detail detailReg () none (mkUU "z")
    { mkUU "z" with failmsg := some "bad digit" } "bad digit" (by decide) (by decide)
